import Mathlib

/-!
Verification development for the timsrust-4d frame reader.

The definitions below are a shallow embedding of `src/io/readers/frame_reader.rs`
and its data model (`src/ms_data/frames.rs`, the SQL row types in
`src/io/readers/file_readers/sql_reader/`).  Conventions:

* Machine integers (`u32`, `usize`, `u8`) are modelled as `Nat`.  Arithmetic is
  modelled with Rust's overflow-checked (debug) semantics: an unsigned
  subtraction that would underflow, or a `u32` addition that would exceed
  `2^32`, is a panic.  A `Vec` index out of range is likewise a panic.
* Fallible Rust code returning `Result` is modelled with `RustResult`, which
  has a third outcome for panics so that panicking executions are
  distinguishable from returned errors.
* `f64` fields are modelled as `F64`, an unnormalized fraction.  The only
  float arithmetic the embedded code performs is `1.0 / accumulation_time`,
  modelled as the exact reciprocal; no claim depends on float rounding or on
  the infinity produced by `1.0 / 0.0` (spec §9 notes the source does not
  guard it).
* The blob reader is out of scope in the source repository; per the spec (§6)
  a blob is a sequence of little-endian `u32` words with indexed access, so a
  blob is a `List Nat` and the reader a function from binary offsets to blobs.
-/

/-- Error kinds of `FrameReaderError` (frame_reader.rs, `enum FrameReaderError`),
without the `timscompress` feature. -/
inductive FrameReaderError where
  | tdfBlobReaderError
  | metadataReaderError
  | fileNotFound
  | sqlReaderError
  | corruptFrame
  | quadrupoleSettingsReaderError
  | indexOutOfBounds
  | compressionTypeError (v : Nat)
deriving DecidableEq, Repr

/-- Outcome of running a piece of Rust code that may return an error or panic. -/
inductive RustResult (α : Type) where
  | ok (a : α)
  | err (e : FrameReaderError)
  | panic
deriving DecidableEq, Repr

/-- Sequencing of fallible Rust computations (the `?` operator): errors and
panics short-circuit. -/
def RustResult.bind {α β : Type} (x : RustResult α) (f : α → RustResult β) :
    RustResult β :=
  match x with
  | .ok a => f a
  | .err e => .err e
  | .panic => .panic

/-- Checked `usize` subtraction: underflow is a panic (overflow-checked
semantics). -/
def usizeSub (a b : Nat) : RustResult Nat :=
  if b ≤ a then .ok (a - b) else .panic

/-- `blob.get(index).ok_or(FrameReaderError::CorruptFrame)?` — a word fetch
beyond the blob end yields `CorruptFrame`. -/
def blobGetOrCorrupt (blob : List Nat) (index : Nat) : RustResult Nat :=
  match blob[index]? with
  | some w => .ok w
  | none => .err .corruptFrame

/-! ## Data model (src/ms_data/frames.rs and the SQL row types) -/

/-- Model of `f64` as an unnormalized exact fraction (see the header note). -/
structure F64 where
  num : Int := 0
  den : Int := 1
deriving DecidableEq, Repr

/-- Float division, used only for `1.0 / accumulation_time`: the exact
fraction quotient, without IEEE rounding. -/
def F64.div (a b : F64) : F64 :=
  { num := a.num * b.den, den := a.den * b.num }

/-- `AcquisitionType` (referenced from ms_data; variants per the spec §3 and
the match in `FrameReader::new`). -/
inductive AcquisitionType where
  | DDAPASEF
  | DIAPASEF
  | Unknown
deriving DecidableEq, Repr

/-- `MSLevel` (frames.rs): MS1, MS2, or Unknown (the default). -/
inductive MSLevel where
  | MS1
  | MS2
  | Unknown
deriving DecidableEq, Repr

/-- `MSLevel::read_from_msms_type` (frames.rs): 0 → MS1; 8, 9 → MS2;
anything else → Unknown. -/
def MSLevel.read_from_msms_type (msms_type : Nat) : MSLevel :=
  match msms_type with
  | 0 => .MS1
  | 8 => .MS2
  | 9 => .MS2
  | _ => .Unknown

/-- Modelled from the spec: `QuadrupoleSettings` is "opaque to this core;
owned externally" (§3); its source file is not under src/.  It is modelled as
a single abstract datum with a default value (the shared sentinel).  The
`Arc` sharing is dropped: frames hold the value itself and structural
equality is value equality. -/
structure QuadrupoleSettings where
  data : Nat := 0
deriving DecidableEq, Repr

/-- `MaldiInfo` (frames.rs). -/
structure MaldiInfo where
  spot_name : String
  pixel_x : Int
  pixel_y : Int
  position_x_um : Option F64
  position_y_um : Option F64
  laser_power : Option F64
  laser_rep_rate : Option F64
  laser_shots : Option Int
deriving DecidableEq, Repr

/-- `Frame` (frames.rs).  Field defaults mirror `Frame::default()`. -/
structure Frame where
  scan_offsets : List Nat := []
  tof_indices : List Nat := []
  intensities : List Nat := []
  index : Nat := 0
  rt_in_seconds : F64 := {}
  acquisition_type : AcquisitionType := .Unknown
  ms_level : MSLevel := .Unknown
  quadrupole_settings : QuadrupoleSettings := {}
  intensity_correction_factor : F64 := {}
  window_group : Nat := 0
  maldi_info : Option MaldiInfo := none
deriving DecidableEq, Repr

instance : Inhabited Frame := ⟨{}⟩

/-- `SqlFrame` (sql_reader/frames.rs): one row of the `Frames` table. -/
structure SqlFrame where
  id : Nat := 0
  scan_mode : Nat := 0
  msms_type : Nat := 0
  peak_count : Nat := 0
  rt : F64 := {}
  scan_count : Nat := 0
  binary_offset : Nat := 0
  accumulation_time : F64 := {}
deriving DecidableEq, Repr

/-- `SqlMaldiFrameInfo` (sql_reader/maldi.rs): one row of `MaldiFrameInfo`. -/
structure SqlMaldiFrameInfo where
  frame : Nat := 0
  spot_name : String := ""
  x_index_pos : Int := 0
  y_index_pos : Int := 0
  x_position : Option F64 := none
  y_position : Option F64 := none
  laser_power : Option F64 := none
  laser_rep_rate : Option F64 := none
  laser_shots : Option Int := none
deriving DecidableEq, Repr

/-- Modelled from the spec: the window-group mapping row (`SqlWindowGroup`,
sql_reader/frame_groups.rs is not under src/); per §6 it maps a 1-based frame
id to a window group. -/
structure SqlWindowGroup where
  frame : Nat
  window_group : Nat
deriving DecidableEq, Repr

/-! ## Blob decoding, compression type 2 (frame_reader.rs lines 287–339) -/

/-- The loop body of `read_scan_offsets` (frame_reader.rs 294–300): for
`scan_index in 0..scan_count - 1`, push `scan_offsets[scan_index] + W[scan_index+1] / 2`.
`cur` is the last pushed offset, `idx` the blob word index to read, and the
final argument the remaining iteration count. -/
def scanOffsetsLoop (blob : List Nat) (cur idx : Nat) : Nat → RustResult (List Nat)
  | 0 => .ok []
  | rem + 1 =>
    RustResult.bind (blobGetOrCorrupt blob idx) fun w =>
    RustResult.bind (scanOffsetsLoop blob (cur + w / 2) (idx + 1) rem) fun l =>
    .ok ((cur + w / 2) :: l)

/-- `read_scan_offsets` (frame_reader.rs 287–303).  The loop bound
`scan_count - 1` underflows (panics) when `scan_count = 0`. -/
def read_scan_offsets (scan_count peak_count : Nat) (blob : List Nat) :
    RustResult (List Nat) :=
  if scan_count = 0 then .panic
  else
    RustResult.bind (scanOffsetsLoop blob 0 1 (scan_count - 1)) fun l =>
    .ok (0 :: l ++ [peak_count])

/-- The loop of `read_intensities` (frame_reader.rs 311–315): for
`peak_index in 0..peak_count`, push `W[scan_count + 1 + 2*peak_index]`. -/
def intensitiesLoop (blob : List Nat) (scan_count p : Nat) : Nat → RustResult (List Nat)
  | 0 => .ok []
  | rem + 1 =>
    RustResult.bind (blobGetOrCorrupt blob (scan_count + 1 + 2 * p)) fun w =>
    RustResult.bind (intensitiesLoop blob scan_count (p + 1) rem) fun l =>
    .ok (w :: l)

/-- `read_intensities` (frame_reader.rs 305–317). -/
def read_intensities (scan_count peak_count : Nat) (blob : List Nat) :
    RustResult (List Nat) :=
  intensitiesLoop blob scan_count 0 peak_count

/-- The inner loop of `read_tof_indices` (frame_reader.rs 330–336): for
`peak_index in start_offset..end_offset`, add `W[scan_count + 2*peak_index]`
to the running `u32` sum and push `sum - 1`.  Overflow of the addition past
`2^32` and underflow of `sum - 1` are panics (checked semantics). -/
def tofScanLoop (blob : List Nat) (scan_count sum p : Nat) : Nat → RustResult (List Nat)
  | 0 => .ok []
  | rem + 1 =>
    RustResult.bind (blobGetOrCorrupt blob (scan_count + 2 * p)) fun w =>
    if sum + w < 2 ^ 32 then
      if sum + w = 0 then .panic
      else
        RustResult.bind (tofScanLoop blob scan_count (sum + w) (p + 1) rem) fun l =>
        .ok ((sum + w - 1) :: l)
    else .panic

/-- The outer loop of `read_tof_indices` (frame_reader.rs 326–337): for
`scan_index in 0..scan_count`, run the inner loop over
`[scan_offsets[scan_index], scan_offsets[scan_index+1])` with the sum reset
to 0.  The `Vec` indexing into the offsets is a panic if out of range. -/
def tofOuterLoop (blob : List Nat) (scan_count : Nat) (offs : List Nat) (k : Nat) :
    Nat → RustResult (List Nat)
  | 0 => .ok []
  | rem + 1 =>
    match offs[k]?, offs[k + 1]? with
    | some s, some e =>
      RustResult.bind (tofScanLoop blob scan_count 0 s (e - s)) fun chunk =>
      RustResult.bind (tofOuterLoop blob scan_count offs (k + 1) rem) fun rest =>
      .ok (chunk ++ rest)
    | _, _ => .panic

/-- `read_tof_indices` (frame_reader.rs 319–339).  `peak_count` is only used
in the source for the vector capacity. -/
def read_tof_indices (scan_count peak_count : Nat) (blob : List Nat)
    (scan_offsets : List Nat) : RustResult (List Nat) :=
  tofOuterLoop blob scan_count scan_offsets 0 scan_count

/-- The blob-decoding body of `get_from_compression_type_2`
(frame_reader.rs 215–225): header word, `peak_count = (blob.len() - scan_count) / 2`
(the subtraction underflows when `scan_count > blob.len()`), then the three
reads in source order. -/
def decodeBlob2 (blob : List Nat) :
    RustResult (List Nat × List Nat × List Nat) :=
  RustResult.bind (blobGetOrCorrupt blob 0) fun scan_count =>
  RustResult.bind (usizeSub blob.length scan_count) fun diff =>
  let peak_count := diff / 2
  RustResult.bind (read_scan_offsets scan_count peak_count blob) fun scan_offsets =>
  RustResult.bind (read_intensities scan_count peak_count blob) fun intensities =>
  RustResult.bind (read_tof_indices scan_count peak_count blob scan_offsets) fun tof_indices =>
  .ok (scan_offsets, intensities, tof_indices)

/-! ## Metadata assembler (frame_reader.rs 341–379) and facade (72–285) -/

/-- `get_frame_without_data` (frame_reader.rs 341–379).  The `&sql_frames[index]`
indexing is a panic when out of range.  For a DIA MS2 frame the source computes
`quadrupole_settings[window_group as usize - 1]`: when `window_group = 0` the
`usize` subtraction underflows, which is a panic (with overflow checks off the
wrapped value makes the `Vec` index panic instead); an out-of-range settings
index is likewise a panic. -/
def get_frame_without_data (index : Nat) (sql_frames : List SqlFrame)
    (acquisition : AcquisitionType) (window_groups : List Nat)
    (quadrupole_settings : List QuadrupoleSettings)
    (maldi_map : Nat → Option SqlMaldiFrameInfo) : RustResult Frame :=
  match sql_frames[index]? with
  | none => .panic
  | some sql_frame =>
    let frame0 : Frame :=
      { index := sql_frame.id
        ms_level := MSLevel.read_from_msms_type sql_frame.msms_type
        rt_in_seconds := sql_frame.rt
        acquisition_type := acquisition
        intensity_correction_factor := F64.div { num := 1 } sql_frame.accumulation_time }
    RustResult.bind
      (if acquisition = .DIAPASEF ∧ frame0.ms_level = .MS2 then
        match window_groups[index]? with
        | none => .panic
        | some window_group =>
          if window_group = 0 then .panic
          else
            match quadrupole_settings[window_group - 1]? with
            | none => .panic
            | some q =>
              .ok { frame0 with window_group := window_group,
                                quadrupole_settings := q }
      else .ok frame0) fun frame1 =>
    .ok (match maldi_map sql_frame.id with
      | some maldi =>
        let info : MaldiInfo :=
          { spot_name := maldi.spot_name
            pixel_x := maldi.x_index_pos
            pixel_y := maldi.y_index_pos
            position_x_um := maldi.x_position
            position_y_um := maldi.y_position
            laser_power := maldi.laser_power
            laser_rep_rate := maldi.laser_rep_rate
            laser_shots := maldi.laser_shots }
        { frame1 with maldi_info := some info }
      | none => frame1)

/-- The acquisition-type detection in `FrameReader::new` (frame_reader.rs
101–107): DDA-PASEF if any row has `msms_type == 8`, else DIA-PASEF if any row
has `msms_type == 9`, else Unknown. -/
def computeAcquisition (sql_frames : List SqlFrame) : AcquisitionType :=
  if sql_frames.any (fun x => x.msms_type == 8) then .DDAPASEF
  else if sql_frames.any (fun x => x.msms_type == 9) then .DIAPASEF
  else .Unknown

/-- The MALDI `HashMap` built in `FrameReader::new` (frame_reader.rs 92–95):
collecting `(m.frame, m)` pairs into a map, where a later row with the same
frame id overwrites an earlier one. -/
def maldiLookup (maldi_rows : List SqlMaldiFrameInfo) (id : Nat) :
    Option SqlMaldiFrameInfo :=
  maldi_rows.reverse.find? (fun m => m.frame == id)

/-- The window-group loop in `FrameReader::new` (frame_reader.rs 112–117):
`window_groups[window_group.frame - 1] = window_group.window_group` for each
row; `frame = 0` underflows and an out-of-range index panics. -/
def applyWindowGroups (window_groups : List Nat) :
    List SqlWindowGroup → RustResult (List Nat)
  | [] => .ok window_groups
  | row :: rest =>
    if row.frame = 0 then .panic
    else if row.frame - 1 < window_groups.length then
      applyWindowGroups (window_groups.set (row.frame - 1) row.window_group) rest
    else .panic

/-- The skeleton-building map in `FrameReader::new` (frame_reader.rs 127–139),
over the given list of container positions (the source uses
`(0..sql_frames.len()).into_par_iter()`; the parallel map is order-preserving,
so it is modelled as a sequential map). -/
def buildFrames (sql_frames : List SqlFrame) (acquisition : AcquisitionType)
    (window_groups : List Nat) (quadrupole_settings : List QuadrupoleSettings)
    (maldi_map : Nat → Option SqlMaldiFrameInfo) :
    List Nat → RustResult (List Frame)
  | [] => .ok []
  | i :: rest =>
    RustResult.bind
      (get_frame_without_data i sql_frames acquisition window_groups
        quadrupole_settings maldi_map) fun f =>
    RustResult.bind
      (buildFrames sql_frames acquisition window_groups quadrupole_settings
        maldi_map rest) fun fs =>
    .ok (f :: fs)

/-- `struct FrameReader` (frame_reader.rs 56–70), without the `timscompress`
feature.  `tdf_bin_reader` is the external blob reader (§6): binary offset to
blob, `none` modelling a lower-level read failure. -/
structure FrameReader where
  tdf_bin_reader : Nat → Option (List Nat)
  frames : List Frame
  acquisition : AcquisitionType
  offsets : List Nat
  dia_windows : Option (List QuadrupoleSettings)
  compression_type : Nat
  is_maldi : Bool

/-- `FrameReader::new` (frame_reader.rs 73–165).  The external collaborators
are parameters: `compression_type` is the metadata reader's answer,
`sql_frames` the loaded `Frames` rows, `maldi_rows` the result of
`read_maldi_frame_info` (empty when the table is absent), `window_rows` the
`DiaFrameMsMsInfo` rows, `quad_settings` the quadrupole settings reader's
answer, and `tdf_bin` the blob reader. -/
def FrameReader.new (compression_type : Nat) (sql_frames : List SqlFrame)
    (maldi_rows : List SqlMaldiFrameInfo) (window_rows : List SqlWindowGroup)
    (quad_settings : List QuadrupoleSettings)
    (tdf_bin : Nat → Option (List Nat)) : RustResult FrameReader :=
  RustResult.bind
    (match compression_type with
      | 2 => .ok 2
      | c => .err (.compressionTypeError c)) fun ct =>
  let is_maldi := !maldi_rows.isEmpty
  let maldi_map := maldiLookup maldi_rows
  let acquisition := computeAcquisition sql_frames
  RustResult.bind
    (if acquisition = .DIAPASEF then
      applyWindowGroups (List.replicate sql_frames.length 0) window_rows
    else .ok (List.replicate sql_frames.length 0)) fun window_groups =>
  let quadrupole_settings :=
    if acquisition = .DIAPASEF then quad_settings else []
  RustResult.bind
    (buildFrames sql_frames acquisition window_groups quadrupole_settings
      maldi_map (List.range sql_frames.length)) fun frames =>
  let offsets := sql_frames.map (fun x => x.binary_offset)
  .ok { tdf_bin_reader := tdf_bin
        frames
        acquisition
        offsets
        dia_windows :=
          if acquisition = .DIAPASEF then some quadrupole_settings else none
        compression_type := ct
        is_maldi }

/-- `FrameReader::len` (frame_reader.rs 277–279). -/
def FrameReader.len (r : FrameReader) : Nat :=
  r.frames.length

/-- `FrameReader::get_binary_offset` (frame_reader.rs 168–170):
`self.offsets[index]`, a panic when out of range. -/
def FrameReader.get_binary_offset (r : FrameReader) (index : Nat) :
    RustResult Nat :=
  match r.offsets[index]? with
  | some o => .ok o
  | none => .panic

/-- `FrameReader::get_frame_without_coordinates` (frame_reader.rs 247–257):
`self.frames.get(index).ok_or(IndexOutOfBounds)?.clone()`. -/
def FrameReader.get_frame_without_coordinates (r : FrameReader) (index : Nat) :
    RustResult Frame :=
  match r.frames[index]? with
  | some f => .ok f
  | none => .err .indexOutOfBounds

/-- `FrameReader::get_from_compression_type_2` (frame_reader.rs 207–227): the
skeleton clone, the offset lookup, the blob fetch, and the blob decoding
(factored here into `decodeBlob2`), writing the three decoded arrays into the
frame. -/
def FrameReader.get_from_compression_type_2 (r : FrameReader) (index : Nat) :
    RustResult Frame :=
  RustResult.bind (r.get_frame_without_coordinates index) fun frame =>
  RustResult.bind (r.get_binary_offset index) fun offset =>
  RustResult.bind
    (match r.tdf_bin_reader offset with
      | some b => .ok b
      | none => .err .tdfBlobReaderError) fun blob =>
  RustResult.bind (decodeBlob2 blob) fun dec =>
  .ok { frame with scan_offsets := dec.1
                   intensities := dec.2.1
                   tof_indices := dec.2.2 }

/-- `FrameReader::get` (frame_reader.rs 196–205), without the `timscompress`
feature: compression type 2 decodes, anything else is
`CompressionTypeError`. -/
def FrameReader.get (r : FrameReader) (index : Nat) : RustResult Frame :=
  match r.compression_type with
  | 2 => r.get_from_compression_type_2 index
  | c => .err (.compressionTypeError c)

/-- `FrameReader::parallel_filter` (frame_reader.rs 172–181):
`(0..len).filter(|x| predicate(&frames[*x])).map(|x| get(x))`.  The rayon
parallel iterator preserves order on collection, so it is modelled as the
sequential list. -/
def FrameReader.parallel_filter (r : FrameReader) (predicate : Frame → Bool) :
    List (RustResult Frame) :=
  ((List.range r.len).filter fun x => predicate (r.frames.getD x default)).map
    fun x => r.get x

/-- `FrameReader::get_all` (frame_reader.rs 259–261):
`parallel_filter(|_| true).collect()`. -/
def FrameReader.get_all (r : FrameReader) : List (RustResult Frame) :=
  r.parallel_filter fun _ => true

/-- `FrameReader::get_acquisition` (frame_reader.rs 273–275). -/
def FrameReader.get_acquisition (r : FrameReader) : AcquisitionType :=
  r.acquisition

/-! ## Specification-side definitions (for the refinement statements)

These few definitions follow the SPEC's words (§4.A), not the source, and are
compared with the source-derived decoder in the claim theorems. -/

/-- Spec §4.A TOF decoding: "the decoder maintains a running sum starting at 0,
reads the next delta, adds it, and emits `sum - 1`".  `specDeltaDecodeFrom sum
deltas` is that decode with running sum `sum`. -/
def specDeltaDecodeFrom (sum : Nat) : List Nat → List Nat
  | [] => []
  | d :: rest => (sum + d - 1) :: specDeltaDecodeFrom (sum + d) rest

/-- Spec §4.A: the deltas of a scan whose peaks are `p, p+1, …, p+count-1` are
the words at offsets `scan_count + 2*peak_index`. -/
def specScanDeltas (blob : List Nat) (scan_count p count : Nat) : List Nat :=
  (List.range count).map fun j => blob.getD (scan_count + 2 * (p + j)) 0

/-- Spec §4.A: the TOF indices of the whole frame are the per-scan delta
decodes, scan `k` covering peaks `[scan_offsets[k], scan_offsets[k+1])`, with
the running sum reset to 0 at each scan boundary.  `k` is the current scan and
the last argument the number of remaining scans. -/
def specTofFrom (blob : List Nat) (scan_count : Nat) (offs : List Nat) (k : Nat) :
    Nat → List Nat
  | 0 => []
  | rem + 1 =>
    specDeltaDecodeFrom 0
      (specScanDeltas blob scan_count (offs.getD k 0)
        (offs.getD (k + 1) 0 - offs.getD k 0)) ++
    specTofFrom blob scan_count offs (k + 1) rem

/-- A minimal one-frame type-2 reader over a single blob, used by the claim
witnesses: one default skeleton, binary offset 0, and a blob reader that
serves the given blob at every offset. -/
def mkDemoReader (blob : List Nat) : FrameReader :=
  { tdf_bin_reader := fun _ => some blob
    frames := [{}]
    acquisition := .Unknown
    offsets := [0]
    dia_windows := none
    compression_type := 2
    is_maldi := false }

/-- The frame decoded from the two-scan demonstration blob `[2, 4, 5, 9, 3, 11]`. -/
def frTwoScan : Frame :=
  { scan_offsets := [0, 2, 2], tof_indices := [4, 7], intensities := [9, 11] }

/-- The frame decoded from the minimal demonstration blob `[1, 3, 7]`. -/
def frMin : Frame :=
  { scan_offsets := [0, 1], tof_indices := [2], intensities := [7] }

/-- The frame decoded from the zero-delta demonstration blob `[1, 3, 7, 0, 5]`. -/
def frZeroDelta : Frame :=
  { scan_offsets := [0, 2], tof_indices := [2, 2], intensities := [7, 5] }

/-- Blob reader used by the MALDI demonstration construction. -/
def c8Bin : Nat → Option (List Nat) := fun _ => some [1, 3, 7]

/-- The skeleton built for the one-row Frames table `[{ id := 1,
accumulation_time := 1 }]` under an Unknown acquisition with no matching
MALDI row. -/
def c8Frame : Frame :=
  { index := 1, ms_level := .MS1,
    intensity_correction_factor := { num := 1, den := 1 } }

/-- The reader produced by constructing over that table with a MALDI table
whose single row references the absent frame id 2. -/
def c8Reader : FrameReader :=
  { tdf_bin_reader := c8Bin
    frames := [c8Frame]
    acquisition := .Unknown
    offsets := [0]
    dia_windows := none
    compression_type := 2
    is_maldi := true }

/-! ## Helper lemmas about the decoding loops -/

theorem RustResult.bind_ok {α β : Type} {x : RustResult α} {f : α → RustResult β}
    {b : β} (h : RustResult.bind x f = .ok b) : ∃ a, x = .ok a ∧ f a = .ok b := by
  cases x with
  | ok a => exact ⟨a, rfl, h⟩
  | err e => simp [RustResult.bind] at h
  | panic => simp [RustResult.bind] at h

theorem RustResult.bind_err {α β : Type} {x : RustResult α} {f : α → RustResult β}
    {e : FrameReaderError} (h : RustResult.bind x f = .err e) :
    x = .err e ∨ ∃ a, x = .ok a ∧ f a = .err e := by
  cases x with
  | ok a => exact Or.inr ⟨a, rfl, h⟩
  | err e' => left; simpa [RustResult.bind] using h
  | panic => simp [RustResult.bind] at h

@[simp] theorem RustResult.ok_bind {α β : Type} (a : α) (f : α → RustResult β) :
    RustResult.bind (.ok a) f = f a := rfl

@[simp] theorem RustResult.err_bind {α β : Type} (e : FrameReaderError)
    (f : α → RustResult β) : RustResult.bind (.err e) f = .err e := rfl

@[simp] theorem RustResult.panic_bind {α β : Type} (f : α → RustResult β) :
    RustResult.bind .panic f = .panic := rfl

theorem blobGetOrCorrupt_ok {blob : List Nat} {index w : Nat}
    (h : blobGetOrCorrupt blob index = .ok w) : blob[index]? = some w := by
  unfold blobGetOrCorrupt at h
  cases hx : blob[index]? with
  | none => rw [hx] at h; exact absurd h (by simp)
  | some v => rw [hx] at h; cases h; rfl

theorem scanOffsetsLoop_ok {blob : List Nat} :
    ∀ {rem cur idx : Nat} {l : List Nat},
      scanOffsetsLoop blob cur idx rem = .ok l →
      l.length = rem ∧
      ∀ j, j < rem → ∃ w a, blob[idx + j]? = some w ∧ (cur :: l)[j]? = some a ∧
        (cur :: l)[j + 1]? = some (a + w / 2) := by
  intro rem
  induction rem with
  | zero =>
    intro cur idx l h
    simp only [scanOffsetsLoop] at h
    cases h
    exact ⟨rfl, by intro j hj; omega⟩
  | succ rem ih =>
    intro cur idx l h
    simp only [scanOffsetsLoop] at h
    obtain ⟨w, hw, h⟩ := RustResult.bind_ok h
    obtain ⟨l', hl', h⟩ := RustResult.bind_ok h
    cases h
    have hblob := blobGetOrCorrupt_ok hw
    obtain ⟨hlen, hstep⟩ := ih hl'
    refine ⟨by simpa using hlen, ?_⟩
    intro j hj
    cases j with
    | zero => exact ⟨w, cur, by simpa using hblob, by simp, by simp⟩
    | succ j =>
      obtain ⟨w', a, hb, ha, ha'⟩ := hstep j (by omega)
      refine ⟨w', a, ?_, ?_, ?_⟩
      · have : idx + 1 + j = idx + (j + 1) := by omega
        rwa [this] at hb
      · simpa using ha
      · simpa using ha'

theorem read_scan_offsets_ok {scan_count peak_count : Nat} {blob so : List Nat}
    (h : read_scan_offsets scan_count peak_count blob = .ok so) :
    1 ≤ scan_count ∧ ∃ l0, scanOffsetsLoop blob 0 1 (scan_count - 1) = .ok l0 ∧
      so = (0 :: l0) ++ [peak_count] := by
  unfold read_scan_offsets at h
  by_cases hz : scan_count = 0
  · rw [if_pos hz] at h; exact absurd h (by simp)
  · rw [if_neg hz] at h
    obtain ⟨l0, hl0, h⟩ := RustResult.bind_ok h
    cases h
    exact ⟨by omega, l0, hl0, by simp⟩

theorem rangeMapShift {f g : Nat → Nat} (hfg : ∀ j, f (j + 1) = g j) (n : Nat) :
    (List.range (n + 1)).map f = f 0 :: (List.range n).map g := by
  rw [List.range_succ_eq_map, List.map_cons, List.map_map]
  refine congrArg _ (List.map_congr_left ?_)
  intro j _
  simpa [Function.comp] using hfg j

theorem intensitiesLoop_ok {blob : List Nat} {scan_count : Nat} :
    ∀ {rem p : Nat} {l : List Nat},
      intensitiesLoop blob scan_count p rem = .ok l →
      l = (List.range rem).map fun j => blob.getD (scan_count + 1 + 2 * (p + j)) 0 := by
  intro rem
  induction rem with
  | zero => intro p l h; simp only [intensitiesLoop] at h; cases h; simp
  | succ rem ih =>
    intro p l h
    simp only [intensitiesLoop] at h
    obtain ⟨w, hw, h⟩ := RustResult.bind_ok h
    obtain ⟨l', hl', h⟩ := RustResult.bind_ok h
    cases h
    have hblob := blobGetOrCorrupt_ok hw
    have hsh := rangeMapShift
      (f := fun j => blob.getD (scan_count + 1 + 2 * (p + j)) 0)
      (g := fun j => blob.getD (scan_count + 1 + 2 * (p + 1 + j)) 0)
      (fun j => congrArg (fun i => blob.getD i 0) (by omega)) rem
    rw [ih hl', hsh]
    refine congrArg₂ _ ?_ rfl
    simp [List.getD_eq_getElem?_getD, hblob]

theorem specDeltaDecodeFrom_length (sum : Nat) (ds : List Nat) :
    (specDeltaDecodeFrom sum ds).length = ds.length := by
  induction ds generalizing sum with
  | nil => rfl
  | cons d rest ih => simp [specDeltaDecodeFrom, ih]

theorem specScanDeltas_length (blob : List Nat) (scan_count p count : Nat) :
    (specScanDeltas blob scan_count p count).length = count := by
  simp [specScanDeltas]

theorem specDeltaDecodeFrom_lower (sum : Nat) (ds : List Nat) :
    ∀ x ∈ specDeltaDecodeFrom sum ds, sum - 1 ≤ x := by
  induction ds generalizing sum with
  | nil => intro x hx; simp [specDeltaDecodeFrom] at hx
  | cons d rest ih =>
    intro x hx
    simp only [specDeltaDecodeFrom, List.mem_cons] at hx
    rcases hx with rfl | hx
    · omega
    · have := ih (sum + d) x hx
      omega

theorem specDeltaDecodeFrom_pairwise (sum : Nat) (ds : List Nat) :
    (specDeltaDecodeFrom sum ds).Pairwise (· ≤ ·) := by
  induction ds generalizing sum with
  | nil => exact List.Pairwise.nil
  | cons d rest ih =>
    simp only [specDeltaDecodeFrom, List.pairwise_cons]
    refine ⟨?_, ih (sum + d)⟩
    intro x hx
    have := specDeltaDecodeFrom_lower (sum + d) rest x hx
    omega

theorem tofScanLoop_ok {blob : List Nat} {scan_count : Nat} :
    ∀ {rem sum p : Nat} {l : List Nat},
      tofScanLoop blob scan_count sum p rem = .ok l →
      l = specDeltaDecodeFrom sum (specScanDeltas blob scan_count p rem) := by
  intro rem
  induction rem with
  | zero =>
    intro sum p l h
    simp only [tofScanLoop] at h
    cases h
    simp [specScanDeltas, specDeltaDecodeFrom]
  | succ rem ih =>
    intro sum p l h
    simp only [tofScanLoop] at h
    obtain ⟨w, hw, h⟩ := RustResult.bind_ok h
    have hblob := blobGetOrCorrupt_ok hw
    by_cases hov : sum + w < 2 ^ 32
    · rw [if_pos hov] at h
      by_cases hz : sum + w = 0
      · rw [if_pos hz] at h; exact absurd h (by simp)
      · rw [if_neg hz] at h
        obtain ⟨l', hl', h⟩ := RustResult.bind_ok h
        cases h
        have hcons : specScanDeltas blob scan_count p (rem + 1) =
            w :: specScanDeltas blob scan_count (p + 1) rem := by
          unfold specScanDeltas
          rw [rangeMapShift
            (g := fun j => blob.getD (scan_count + 2 * (p + 1 + j)) 0)
            (fun j => congrArg (fun i => blob.getD i 0) (by omega)) rem]
          refine congrArg₂ _ ?_ rfl
          simp [List.getD_eq_getElem?_getD, hblob]
        rw [hcons, specDeltaDecodeFrom, ih hl']
    · rw [if_neg hov] at h; exact absurd h (by simp)

theorem tofOuterLoop_ok {blob : List Nat} {scan_count : Nat} {offs : List Nat} :
    ∀ {rem k : Nat} {t : List Nat},
      tofOuterLoop blob scan_count offs k rem = .ok t →
      t = specTofFrom blob scan_count offs k rem := by
  intro rem
  induction rem with
  | zero => intro k t h; simp only [tofOuterLoop] at h; cases h; rfl
  | succ rem ih =>
    intro k t h
    simp only [tofOuterLoop] at h
    cases hs : offs[k]? with
    | none => rw [hs] at h; exact absurd h (by simp)
    | some s =>
      cases he : offs[k + 1]? with
      | none => rw [hs, he] at h; exact absurd h (by simp)
      | some e =>
        rw [hs, he] at h
        obtain ⟨chunk, hchunk, h⟩ := RustResult.bind_ok h
        obtain ⟨rest, hrest, h⟩ := RustResult.bind_ok h
        cases h
        rw [specTofFrom, tofScanLoop_ok hchunk, ih hrest]
        have hgd : offs.getD k 0 = s ∧ offs.getD (k + 1) 0 = e := by
          constructor
          · simp [List.getD_eq_getElem?_getD, hs]
          · simp [List.getD_eq_getElem?_getD, he]
        rw [hgd.1, hgd.2]

theorem usizeSub_ok {a b c : Nat} (h : usizeSub a b = .ok c) :
    b ≤ a ∧ c = a - b := by
  unfold usizeSub at h
  by_cases hba : b ≤ a
  · rw [if_pos hba] at h; cases h; exact ⟨hba, rfl⟩
  · rw [if_neg hba] at h; exact absurd h (by simp)

/-- Master characterization of a successful type-2 blob decode: the header
word, the bounds checks, the scan-offset structure, and the two peak arrays. -/
theorem decodeBlob2_ok {blob so ints tof : List Nat}
    (h : decodeBlob2 blob = .ok (so, ints, tof)) :
    ∃ sc, blob[0]? = some sc ∧ 1 ≤ sc ∧ sc ≤ blob.length ∧
      so.length = sc + 1 ∧
      so[0]? = some 0 ∧
      (∀ k, k + 1 < sc → ∃ w a, blob[k + 1]? = some w ∧ so[k]? = some a ∧
        so[k + 1]? = some (a + w / 2)) ∧
      so[sc]? = some ((blob.length - sc) / 2) ∧
      ints = ((List.range ((blob.length - sc) / 2)).map
        fun p => blob.getD (sc + 1 + 2 * p) 0) ∧
      tof = specTofFrom blob sc so 0 sc := by
  unfold decodeBlob2 at h
  obtain ⟨sc, hsc, h⟩ := RustResult.bind_ok h
  obtain ⟨diff, hdiff, h⟩ := RustResult.bind_ok h
  obtain ⟨so', hso, h⟩ := RustResult.bind_ok h
  obtain ⟨ints', hints, h⟩ := RustResult.bind_ok h
  obtain ⟨tof', htof, h⟩ := RustResult.bind_ok h
  cases h
  have hblob := blobGetOrCorrupt_ok hsc
  obtain ⟨hle, rfl⟩ := usizeSub_ok hdiff
  obtain ⟨hsc1, l0, hl0, rfl⟩ := read_scan_offsets_ok hso
  obtain ⟨hlen0, hstep0⟩ := scanOffsetsLoop_ok hl0
  have hplen : (0 :: l0).length = sc := by simp [hlen0]; omega
  refine ⟨sc, hblob, hsc1, hle, ?_, ?_, ?_, ?_, ?_, ?_⟩
  · simp [hlen0]; omega
  · rw [List.getElem?_append_left (by simp)]; simp
  · intro k hk
    obtain ⟨w, a, hw, ha, ha'⟩ := hstep0 k (by omega)
    refine ⟨w, a, by rwa [Nat.add_comm 1 k] at hw, ?_, ?_⟩
    · rw [List.getElem?_append_left (by omega)]; exact ha
    · rw [List.getElem?_append_left (by omega)]; exact ha'
  · rw [← hplen, List.getElem?_concat_length]
  · simpa using intensitiesLoop_ok hints
  · exact tofOuterLoop_ok htof

/-- The scan offsets of a successful decode are nondecreasing on the prefix
`[0 .. scan_count - 1]` (every entry but the final `peak_count` push). -/
theorem decodeBlob2_ok_mono {blob so : List Nat} {sc : Nat}
    (hstep : ∀ k, k + 1 < sc → ∃ w a, blob[k + 1]? = some w ∧ so[k]? = some a ∧
      so[k + 1]? = some (a + w / 2)) :
    ∀ j, j + 1 < sc → ∃ a b, so[j]? = some a ∧ so[j + 1]? = some b ∧ a ≤ b := by
  intro j hj
  obtain ⟨w, a, _, ha, ha'⟩ := hstep j hj
  exact ⟨a, a + w / 2, ha, ha', Nat.le_add_right a (w / 2)⟩

/-- Alignment of the per-scan TOF chunks with the scan offsets: dropping
`scan_offsets[kt]` elements from the full TOF list leaves exactly the decode
of scans `kt` and later.  Uses the monotonicity of the offsets prefix. -/
theorem specTofFrom_drop (blob : List Nat) {sc : Nat} {offs : List Nat}
    (mono : ∀ j, j + 1 < sc → ∃ a b, offs[j]? = some a ∧ offs[j + 1]? = some b ∧
      a ≤ b)
    (h0 : offs[0]? = some 0) :
    ∀ kt s, kt < sc → offs[kt]? = some s →
      (specTofFrom blob sc offs 0 sc).drop s = specTofFrom blob sc offs kt (sc - kt) := by
  intro kt
  induction kt with
  | zero =>
    intro s _ hs
    rw [h0] at hs
    cases hs
    rfl
  | succ k ih =>
    intro s hk hs
    obtain ⟨a, b, ha, hb, hab⟩ := mono k hk
    rw [hs] at hb
    cases hb
    have hdrop := ih a (by omega) ha
    have hs2 : s = a + (s - a) := by omega
    rw [hs2, ← List.drop_drop, hdrop]
    have hrem : sc - k = (sc - (k + 1)) + 1 := by omega
    rw [hrem, specTofFrom]
    refine List.drop_left' ?_
    rw [specDeltaDecodeFrom_length, specScanDeltas_length]
    simp [List.getD_eq_getElem?_getD, ha, hs]

/-! ## Error classification: every decode-time error is `CorruptFrame` -/

theorem blobGetOrCorrupt_err {blob : List Nat} {index : Nat} {e : FrameReaderError}
    (h : blobGetOrCorrupt blob index = .err e) : e = .corruptFrame := by
  unfold blobGetOrCorrupt at h
  cases hx : blob[index]? with
  | none => rw [hx] at h; cases h; rfl
  | some v => rw [hx] at h; exact absurd h (by simp)

theorem usizeSub_err {a b : Nat} {e : FrameReaderError}
    (h : usizeSub a b = .err e) : False := by
  unfold usizeSub at h
  by_cases hba : b ≤ a
  · rw [if_pos hba] at h; exact absurd h (by simp)
  · rw [if_neg hba] at h; exact absurd h (by simp)

theorem scanOffsetsLoop_err {blob : List Nat} :
    ∀ {rem cur idx : Nat} {e : FrameReaderError},
      scanOffsetsLoop blob cur idx rem = .err e → e = .corruptFrame := by
  intro rem
  induction rem with
  | zero => intro cur idx e h; exact absurd h (by simp [scanOffsetsLoop])
  | succ rem ih =>
    intro cur idx e h
    simp only [scanOffsetsLoop] at h
    rcases RustResult.bind_err h with h1 | ⟨w, _, h1⟩
    · exact blobGetOrCorrupt_err h1
    · rcases RustResult.bind_err h1 with h2 | ⟨l, _, h2⟩
      · exact ih h2
      · exact absurd h2 (by simp)

theorem read_scan_offsets_err {scan_count peak_count : Nat} {blob : List Nat}
    {e : FrameReaderError}
    (h : read_scan_offsets scan_count peak_count blob = .err e) :
    e = .corruptFrame := by
  unfold read_scan_offsets at h
  by_cases hz : scan_count = 0
  · rw [if_pos hz] at h; exact absurd h (by simp)
  · rw [if_neg hz] at h
    rcases RustResult.bind_err h with h1 | ⟨l, _, h1⟩
    · exact scanOffsetsLoop_err h1
    · exact absurd h1 (by simp)

theorem intensitiesLoop_err {blob : List Nat} {scan_count : Nat} :
    ∀ {rem p : Nat} {e : FrameReaderError},
      intensitiesLoop blob scan_count p rem = .err e → e = .corruptFrame := by
  intro rem
  induction rem with
  | zero => intro p e h; exact absurd h (by simp [intensitiesLoop])
  | succ rem ih =>
    intro p e h
    simp only [intensitiesLoop] at h
    rcases RustResult.bind_err h with h1 | ⟨w, _, h1⟩
    · exact blobGetOrCorrupt_err h1
    · rcases RustResult.bind_err h1 with h2 | ⟨l, _, h2⟩
      · exact ih h2
      · exact absurd h2 (by simp)

theorem tofScanLoop_err {blob : List Nat} {scan_count : Nat} :
    ∀ {rem sum p : Nat} {e : FrameReaderError},
      tofScanLoop blob scan_count sum p rem = .err e → e = .corruptFrame := by
  intro rem
  induction rem with
  | zero => intro sum p e h; exact absurd h (by simp [tofScanLoop])
  | succ rem ih =>
    intro sum p e h
    simp only [tofScanLoop] at h
    rcases RustResult.bind_err h with h1 | ⟨w, _, h1⟩
    · exact blobGetOrCorrupt_err h1
    · by_cases hov : sum + w < 2 ^ 32
      · rw [if_pos hov] at h1
        by_cases hz : sum + w = 0
        · rw [if_pos hz] at h1; exact absurd h1 (by simp)
        · rw [if_neg hz] at h1
          rcases RustResult.bind_err h1 with h2 | ⟨l, _, h2⟩
          · exact ih h2
          · exact absurd h2 (by simp)
      · rw [if_neg hov] at h1; exact absurd h1 (by simp)

theorem tofOuterLoop_err {blob : List Nat} {scan_count : Nat} {offs : List Nat} :
    ∀ {rem k : Nat} {e : FrameReaderError},
      tofOuterLoop blob scan_count offs k rem = .err e → e = .corruptFrame := by
  intro rem
  induction rem with
  | zero => intro k e h; exact absurd h (by simp [tofOuterLoop])
  | succ rem ih =>
    intro k e h
    simp only [tofOuterLoop] at h
    cases hs : offs[k]? with
    | none => rw [hs] at h; exact absurd h (by simp)
    | some s =>
      cases he : offs[k + 1]? with
      | none => rw [hs, he] at h; exact absurd h (by simp)
      | some e' =>
        rw [hs, he] at h
        rcases RustResult.bind_err h with h1 | ⟨c, _, h1⟩
        · exact tofScanLoop_err h1
        · rcases RustResult.bind_err h1 with h2 | ⟨t, _, h2⟩
          · exact ih h2
          · exact absurd h2 (by simp)

/-- Every error a type-2 blob decode can return is `CorruptFrame` (the only
error sites are the word fetches beyond the blob end). -/
theorem decodeBlob2_err {blob : List Nat} {e : FrameReaderError}
    (h : decodeBlob2 blob = .err e) : e = .corruptFrame := by
  unfold decodeBlob2 at h
  rcases RustResult.bind_err h with h1 | ⟨sc, _, h1⟩
  · exact blobGetOrCorrupt_err h1
  rcases RustResult.bind_err h1 with h2 | ⟨diff, _, h2⟩
  · exact absurd h2 usizeSub_err
  rcases RustResult.bind_err h2 with h3 | ⟨so, _, h3⟩
  · exact read_scan_offsets_err h3
  rcases RustResult.bind_err h3 with h4 | ⟨ints, _, h4⟩
  · exact intensitiesLoop_err h4
  rcases RustResult.bind_err h4 with h5 | ⟨tof, _, h5⟩
  · exact tofOuterLoop_err h5
  · exact absurd h5 (by simp)

/-! ## Bridge between `FrameReader.get` and the blob decode -/

/-- A successful `get` on a type-2 reader decomposes into the offset lookup,
the blob fetch, and a successful decode producing exactly the frame's three
peak arrays. -/
theorem FrameReader.get_ok_decode {r : FrameReader} {i : Nat} {fr : Frame}
    (h : r.get i = .ok fr) :
    ∃ off blob, r.offsets[i]? = some off ∧ r.tdf_bin_reader off = some blob ∧
      decodeBlob2 blob = .ok (fr.scan_offsets, fr.intensities, fr.tof_indices) := by
  unfold FrameReader.get at h
  split at h
  case h_2 => exact absurd h (by simp)
  case h_1 =>
    unfold FrameReader.get_from_compression_type_2 at h
    obtain ⟨f0, hf0, h⟩ := RustResult.bind_ok h
    obtain ⟨off, hoff, h⟩ := RustResult.bind_ok h
    obtain ⟨blob, hblob, h⟩ := RustResult.bind_ok h
    obtain ⟨dec, hdec, h⟩ := RustResult.bind_ok h
    cases h
    unfold FrameReader.get_binary_offset at hoff
    have hoff' : r.offsets[i]? = some off := by
      cases hx : r.offsets[i]? with
      | none => rw [hx] at hoff; exact absurd hoff (by simp)
      | some o => rw [hx] at hoff; cases hoff; rfl
    have hblob' : r.tdf_bin_reader off = some blob := by
      cases hx : r.tdf_bin_reader off with
      | none => rw [hx] at hblob; exact absurd hblob (by simp)
      | some b => rw [hx] at hblob; cases hblob; rfl
    exact ⟨off, blob, hoff', hblob', by simpa using hdec⟩

/-! ## Helper lemmas about construction -/

theorem buildFrames_ok {sf : List SqlFrame} {acq : AcquisitionType}
    {wg : List Nat} {qs : List QuadrupoleSettings}
    {mm : Nat → Option SqlMaldiFrameInfo} :
    ∀ {idxs : List Nat} {frames : List Frame},
      buildFrames sf acq wg qs mm idxs = .ok frames →
      frames.length = idxs.length ∧
      ∀ fr ∈ frames, ∃ i ∈ idxs,
        get_frame_without_data i sf acq wg qs mm = .ok fr := by
  intro idxs
  induction idxs with
  | nil =>
    intro frames h
    simp only [buildFrames] at h
    cases h
    simp
  | cons i rest ih =>
    intro frames h
    simp only [buildFrames] at h
    obtain ⟨fr, hfr, h⟩ := RustResult.bind_ok h
    obtain ⟨frs, hfrs, h⟩ := RustResult.bind_ok h
    cases h
    obtain ⟨hlen, hmem⟩ := ih hfrs
    refine ⟨by simp [hlen], ?_⟩
    intro fr' hfr'
    rcases List.mem_cons.mp hfr' with rfl | hfr'
    · exact ⟨i, List.mem_cons_self i rest, hfr⟩
    · obtain ⟨i', hi', hok⟩ := hmem fr' hfr'
      exact ⟨i', List.mem_cons_of_mem i hi', hok⟩

theorem get_frame_without_data_ok {index : Nat} {sf : List SqlFrame}
    {acq : AcquisitionType} {wg : List Nat} {qs : List QuadrupoleSettings}
    {mm : Nat → Option SqlMaldiFrameInfo} {fr : Frame}
    (h : get_frame_without_data index sf acq wg qs mm = .ok fr) :
    ∃ sqlf, sf[index]? = some sqlf ∧ fr.acquisition_type = acq ∧
      (fr.maldi_info.isSome ↔ (mm sqlf.id).isSome) := by
  unfold get_frame_without_data at h
  cases hx : sf[index]? with
  | none => rw [hx] at h; exact absurd h (by simp)
  | some sqlf =>
    rw [hx] at h
    obtain ⟨frame1, hstep, hfin⟩ := RustResult.bind_ok h
    have hbase : frame1.acquisition_type = acq ∧ frame1.maldi_info = none := by
      split at hstep
      · split at hstep
        · exact absurd hstep (by simp)
        · split at hstep
          · exact absurd hstep (by simp)
          · split at hstep
            · exact absurd hstep (by simp)
            · cases hstep; exact ⟨rfl, rfl⟩
      · cases hstep; exact ⟨rfl, rfl⟩
    refine ⟨sqlf, rfl, ?_⟩
    cases hmm : mm sqlf.id with
    | none =>
      rw [hmm] at hfin
      cases hfin
      simp [hbase.1, hbase.2, hmm]
    | some m =>
      rw [hmm] at hfin
      cases hfin
      simp [hbase.1, hmm]

/-- Inversion of a successful `FrameReader::new`: the reader's fields in terms
of the construction inputs. -/
theorem FrameReader.new_ok {ct : Nat} {sf : List SqlFrame}
    {mr : List SqlMaldiFrameInfo} {wr : List SqlWindowGroup}
    {qs : List QuadrupoleSettings} {bin : Nat → Option (List Nat)}
    {r : FrameReader} (h : FrameReader.new ct sf mr wr qs bin = .ok r) :
    r.compression_type = 2 ∧ r.acquisition = computeAcquisition sf ∧
    r.is_maldi = !mr.isEmpty ∧
    r.offsets = sf.map (fun x => x.binary_offset) ∧
    r.tdf_bin_reader = bin ∧ r.frames.length = sf.length ∧
    ∃ wg qs', buildFrames sf (computeAcquisition sf) wg qs' (maldiLookup mr)
      (List.range sf.length) = .ok r.frames := by
  unfold FrameReader.new at h
  obtain ⟨ct', hct, h⟩ := RustResult.bind_ok h
  obtain ⟨wg, hwg, h⟩ := RustResult.bind_ok h
  obtain ⟨frames, hframes, h⟩ := RustResult.bind_ok h
  have hct2 : ct' = 2 := by
    split at hct
    · cases hct; rfl
    · exact absurd hct (by simp)
  cases h
  subst hct2
  obtain ⟨hlen, -⟩ := buildFrames_ok hframes
  exact ⟨rfl, rfl, rfl, rfl, rfl, by simpa using hlen,
    wg, _, hframes⟩

/-! ## Claim theorems -/

/-- C1: for every type-2 blob successfully decoded by `get`, the returned
scan offsets follow the spec's derivation exactly: with `sc = W[0]` the list
has length `sc + 1`, starts at 0, satisfies
`scan_offsets[k+1] = scan_offsets[k] + W[k+1] / 2` for every `k` in
`0..sc-1` (exclusive Rust range), and ends with
`peak_count = (blob_len - sc) / 2`. -/
theorem claim_C1_scan_offset_derivation {r : FrameReader} {i : Nat} {fr : Frame}
    (h : r.get i = .ok fr) :
    ∃ off blob sc, r.offsets[i]? = some off ∧ r.tdf_bin_reader off = some blob ∧
      blob[0]? = some sc ∧
      fr.scan_offsets.length = sc + 1 ∧
      fr.scan_offsets[0]? = some 0 ∧
      (∀ k, k + 1 < sc → ∃ w a, blob[k + 1]? = some w ∧
        fr.scan_offsets[k]? = some a ∧
        fr.scan_offsets[k + 1]? = some (a + w / 2)) ∧
      fr.scan_offsets[sc]? = some ((blob.length - sc) / 2) := by
  obtain ⟨off, blob, hoff, hblob, hdec⟩ := FrameReader.get_ok_decode h
  obtain ⟨sc, h1, _, _, h4, h5, h6, h7, _, _⟩ := decodeBlob2_ok hdec
  exact ⟨off, blob, sc, hoff, hblob, h1, h4, h5, h6, h7⟩

/-- C1 witness: the two-scan blob `[2, 4, 5, 9, 3, 11]` decodes with
`scan_offsets = [0, 2, 2]` and satisfies the derivation. -/
theorem claim_C1_witness :
    (mkDemoReader [2, 4, 5, 9, 3, 11]).get 0 = .ok frTwoScan ∧
    (∃ off blob sc,
      (mkDemoReader [2, 4, 5, 9, 3, 11]).offsets[0]? = some off ∧
      (mkDemoReader [2, 4, 5, 9, 3, 11]).tdf_bin_reader off = some blob ∧
      blob[0]? = some sc ∧
      frTwoScan.scan_offsets.length = sc + 1 ∧
      frTwoScan.scan_offsets[0]? = some 0 ∧
      (∀ k, k + 1 < sc → ∃ w a, blob[k + 1]? = some w ∧
        frTwoScan.scan_offsets[k]? = some a ∧
        frTwoScan.scan_offsets[k + 1]? = some (a + w / 2)) ∧
      frTwoScan.scan_offsets[sc]? = some ((blob.length - sc) / 2)) :=
  ⟨by decide, claim_C1_scan_offset_derivation (by decide)⟩

/-- C2: for every type-2 blob successfully decoded by `get`, the intensities
are the words at `sc + 1 + 2p` and the TOF indices are the per-scan one-biased
delta decode (running sum starting at 0 at each scan boundary, emitting
`sum - 1`, deltas at `sc + 2p`). -/
theorem claim_C2_delta_decoding {r : FrameReader} {i : Nat} {fr : Frame}
    (h : r.get i = .ok fr) :
    ∃ off blob sc, r.offsets[i]? = some off ∧ r.tdf_bin_reader off = some blob ∧
      blob[0]? = some sc ∧
      fr.intensities = ((List.range ((blob.length - sc) / 2)).map
        fun p => blob.getD (sc + 1 + 2 * p) 0) ∧
      fr.tof_indices = specTofFrom blob sc fr.scan_offsets 0 sc := by
  obtain ⟨off, blob, hoff, hblob, hdec⟩ := FrameReader.get_ok_decode h
  obtain ⟨sc, h1, _, _, _, _, _, _, h8, h9⟩ := decodeBlob2_ok hdec
  exact ⟨off, blob, sc, hoff, hblob, h1, h8, h9⟩

/-- C2 witness: the minimal blob `[1, 3, 7]` decodes to
`scan_offsets = [0, 1]`, `intensities = [7]`, `tof_indices = [2]` and
satisfies the delta-decoding characterization. -/
theorem claim_C2_witness :
    (mkDemoReader [1, 3, 7]).get 0 = .ok frMin ∧
    (∃ off blob sc,
      (mkDemoReader [1, 3, 7]).offsets[0]? = some off ∧
      (mkDemoReader [1, 3, 7]).tdf_bin_reader off = some blob ∧
      blob[0]? = some sc ∧
      frMin.intensities = ((List.range ((blob.length - sc) / 2)).map
        fun p => blob.getD (sc + 1 + 2 * p) 0) ∧
      frMin.tof_indices = specTofFrom blob sc frMin.scan_offsets 0 sc) :=
  ⟨by decide, claim_C2_delta_decoding (by decide)⟩

/-- C3 counterexample: the claim of strict increase fails.  The blob
`[1, 3, 7, 0, 5]` (one scan, two peaks, second delta 0) is decoded
successfully by `get`, but the TOF indices of scan 0 (peak range `[0, 2)`)
are `[2, 2]`, which is not strictly increasing. -/
theorem claim_C3_counterexample :
    (mkDemoReader [1, 3, 7, 0, 5]).get 0 = .ok frZeroDelta ∧
    ¬ ((frZeroDelta.tof_indices.drop 0).take (2 - 0)).Pairwise (· < ·) :=
  ⟨by decide, by decide⟩

/-- C3 amended: within one scan (peaks in
`[scan_offsets[k], scan_offsets[k+1])`) the TOF indices of a frame
successfully returned by `get` are nondecreasing; strict increase holds only
when no delta within the scan is zero. -/
theorem claim_C3_nondecreasing_within_scan {r : FrameReader} {i : Nat}
    {fr : Frame} {k s e : Nat} (h : r.get i = .ok fr)
    (hs : fr.scan_offsets[k]? = some s) (he : fr.scan_offsets[k + 1]? = some e) :
    ((fr.tof_indices.drop s).take (e - s)).Pairwise (· ≤ ·) := by
  obtain ⟨off, blob, hoff, hblob, hdec⟩ := FrameReader.get_ok_decode h
  obtain ⟨sc, h1, hsc1, hscle, h4, h5, h6, h7, h8, h9⟩ := decodeBlob2_ok hdec
  have hk1 : k + 1 < fr.scan_offsets.length := by
    obtain ⟨hlt, -⟩ := List.getElem?_eq_some_iff.mp he
    exact hlt
  have hk : k < sc := by omega
  have mono := decodeBlob2_ok_mono h6
  have hdrop := specTofFrom_drop blob mono h5 k s hk hs
  rw [h9, hdrop]
  have hrem : sc - k = (sc - (k + 1)) + 1 := by omega
  rw [hrem, specTofFrom]
  rw [List.take_left' ?hlen]
  case hlen =>
    rw [specDeltaDecodeFrom_length, specScanDeltas_length]
    simp [List.getD_eq_getElem?_getD, hs, he]
  exact specDeltaDecodeFrom_pairwise 0 _

/-- C3 witness: the amended nondecreasing statement at the counterexample
blob `[1, 3, 7, 0, 5]`: scan 0 covers peaks `[0, 2)` and its TOF indices
`[2, 2]` are nondecreasing. -/
theorem claim_C3_witness :
    ((frZeroDelta.tof_indices.drop 0).take (2 - 0)).Pairwise (· ≤ ·) :=
  claim_C3_nondecreasing_within_scan
    (r := mkDemoReader [1, 3, 7, 0, 5]) (i := 0) (k := 0) (s := 0) (e := 2)
    (by decide) (by decide) (by decide)

/-- C4 counterexample: a blob whose `(blob_len - scan_count)` is odd is NOT
rejected with `CorruptFrame`.  The blob `[1, 3, 7, 9]` has length 4,
`scan_count = 1`, and `(4 - 1) % 2 = 1`, yet it decodes successfully (the
trailing word is ignored and `peak_count` is floored). -/
theorem claim_C4_counterexample :
    decodeBlob2 [1, 3, 7, 9] = .ok ([0, 1], [7], [2]) ∧
    ([1, 3, 7, 9] : List Nat).length = 4 ∧ (4 - 1) % 2 ≠ 0 :=
  ⟨by decide, by decide, by decide⟩

/-- C4 amended: under compression type 2 the decode returns `CorruptFrame`
(and no partial frame) for every empty blob, and every error the decode can
return is `CorruptFrame` — raised exactly by word fetches beyond the blob end
(for example the blob `[2, 6, 9, 5]`, whose scan 0 reaches word index 4).  A
blob length with `(blob_len - scan_count)` odd is not itself rejected. -/
theorem claim_C4_corrupt_frame_errors :
    (∀ blob : List Nat, blob = [] → decodeBlob2 blob = .err .corruptFrame) ∧
    (∀ (blob : List Nat) (e : FrameReaderError),
      decodeBlob2 blob = .err e → e = .corruptFrame) ∧
    decodeBlob2 [2, 6, 9, 5] = .err .corruptFrame :=
  ⟨fun blob hb => by subst hb; decide,
   fun _ _ h => decodeBlob2_err h,
   by decide⟩

/-- C4 witness: the empty-blob case of the amended statement. -/
theorem claim_C4_witness : decodeBlob2 [] = .err .corruptFrame :=
  claim_C4_corrupt_frame_errors.1 [] rfl

/-- C10: for a type-2 blob whose header word is 0 or exceeds the blob length
in words, `get` panics on unsigned-integer underflow (`blob.len() - scan_count`
and the loop bound `scan_count - 1`, under overflow-checked semantics) instead
of returning `CorruptFrame`. -/
theorem claim_C10_underflow_panics (r : FrameReader) (i off w : Nat) (f : Frame)
    (blob : List Nat) (hc : r.compression_type = 2) (hf : r.frames[i]? = some f)
    (ho : r.offsets[i]? = some off) (hb : r.tdf_bin_reader off = some blob)
    (hw : blob[0]? = some w) (h0 : w = 0 ∨ blob.length < w) :
    r.get i = .panic := by
  have hget : r.get i = r.get_from_compression_type_2 i := by
    unfold FrameReader.get
    rw [hc]
  have hdec : decodeBlob2 blob = .panic := by
    have hw' : blobGetOrCorrupt blob 0 = .ok w := by
      unfold blobGetOrCorrupt; rw [hw]
    unfold decodeBlob2
    rw [hw', RustResult.ok_bind]
    rcases h0 with rfl | hlt
    · have h1 : usizeSub blob.length 0 = .ok blob.length := by
        simp [usizeSub]
      rw [h1, RustResult.ok_bind]
      have h2 : ∀ pc, read_scan_offsets 0 pc blob = .panic := by
        intro pc; simp [read_scan_offsets]
      simp only [h2, RustResult.panic_bind]
    · have h1 : usizeSub blob.length w = .panic := by
        unfold usizeSub
        rw [if_neg (by omega)]
      rw [h1, RustResult.panic_bind]
  rw [hget]
  unfold FrameReader.get_from_compression_type_2
  have h1 : r.get_frame_without_coordinates i = .ok f := by
    unfold FrameReader.get_frame_without_coordinates; rw [hf]
  have h2 : r.get_binary_offset i = .ok off := by
    unfold FrameReader.get_binary_offset; rw [ho]
  rw [h1, RustResult.ok_bind, h2, RustResult.ok_bind, hb, RustResult.ok_bind,
    hdec, RustResult.panic_bind]

/-- C10 witness: the blobs `[0, 3, 7]` (header word 0) and `[5]` (header word
larger than the blob length) both make `get` panic. -/
theorem claim_C10_witness :
    (mkDemoReader [0, 3, 7]).get 0 = .panic ∧
    (mkDemoReader [5]).get 0 = .panic :=
  ⟨claim_C10_underflow_panics (mkDemoReader [0, 3, 7]) 0 0 0 {} [0, 3, 7]
      rfl (by decide) (by decide) rfl (by decide) (Or.inl rfl),
   claim_C10_underflow_panics (mkDemoReader [5]) 0 0 5 {} [5]
      rfl (by decide) (by decide) rfl (by decide) (Or.inr (by decide))⟩

/-- C5 counterexample: the claim of panic-free default handling fails.  For a
DIA MS2 frame with window group 0 the skeleton construction panics (the
`usize` subtraction `window_group - 1` underflows; without overflow checks the
wrapped value makes the settings index panic) instead of using the shared
default quadrupole settings. -/
theorem claim_C5_counterexample :
    get_frame_without_data 0 [{ id := 1, msms_type := 9 }] .DIAPASEF [0]
      [{ data := 7 }] (fun _ => none) = .panic := by decide

/-- C5 amended: for a DIA-PASEF acquisition, a frame whose `MsMsType` is 8 or
9 (an MS2 frame) and whose window group is 0 (no window-group row for that
frame) makes skeleton construction panic; the shared default is not used. -/
theorem claim_C5_dia_window_group_zero_panics (index : Nat)
    (sql_frames : List SqlFrame) (window_groups : List Nat)
    (quadrupole_settings : List QuadrupoleSettings)
    (maldi_map : Nat → Option SqlMaldiFrameInfo) (f : SqlFrame)
    (hf : sql_frames[index]? = some f) (hm : f.msms_type = 8 ∨ f.msms_type = 9)
    (hw : window_groups[index]? = some 0) :
    get_frame_without_data index sql_frames .DIAPASEF window_groups
      quadrupole_settings maldi_map = .panic := by
  have hms : MSLevel.read_from_msms_type f.msms_type = .MS2 := by
    rcases hm with h8 | h9
    · rw [h8]; rfl
    · rw [h9]; rfl
  simp only [get_frame_without_data, hf, hms, hw]
  simp

/-- C5 witness for the amended statement, at a one-row DIA table whose MS2
frame has no window-group assignment. -/
theorem claim_C5_witness :
    get_frame_without_data 0 [{ id := 3, msms_type := 8 }] .DIAPASEF [0] []
      (fun _ => none) = .panic :=
  claim_C5_dia_window_group_zero_panics 0 [{ id := 3, msms_type := 8 }] [0] []
    (fun _ => none) { id := 3, msms_type := 8 } (by decide) (Or.inl rfl)
    (by decide)

/-- C6: on a type-2 reader whose offsets table matches its skeleton table (as
construction guarantees), `get i` returns `IndexOutOfBounds` exactly when
`i ≥ len()`; in particular no panic on the offsets table occurs first, and in
bounds the error never arises. -/
theorem claim_C6_index_out_of_bounds_iff (r : FrameReader) (i : Nat)
    (hc : r.compression_type = 2) (hlen : r.offsets.length = r.frames.length) :
    r.get i = .err .indexOutOfBounds ↔ r.len ≤ i := by
  have hget : r.get i = r.get_from_compression_type_2 i := by
    unfold FrameReader.get; rw [hc]
  rw [hget]
  constructor
  · intro h
    by_contra hge
    have hlt : i < r.frames.length := by
      unfold FrameReader.len at hge; omega
    have hf : r.frames[i]? = some r.frames[i] := List.getElem?_eq_getElem hlt
    have hofflt : i < r.offsets.length := by omega
    have hoff : r.offsets[i]? = some r.offsets[i] :=
      List.getElem?_eq_getElem hofflt
    unfold FrameReader.get_from_compression_type_2 at h
    have h1 : r.get_frame_without_coordinates i = .ok r.frames[i] := by
      unfold FrameReader.get_frame_without_coordinates; rw [hf]
    have h2 : r.get_binary_offset i = .ok r.offsets[i] := by
      unfold FrameReader.get_binary_offset; rw [hoff]
    rw [h1, RustResult.ok_bind, h2, RustResult.ok_bind] at h
    cases hbin : r.tdf_bin_reader r.offsets[i] with
    | none =>
      rw [hbin] at h
      exact absurd h (by simp)
    | some blob =>
      rw [hbin, RustResult.ok_bind] at h
      rcases RustResult.bind_err h with h3 | ⟨dec, -, h3⟩
      · exact absurd (decodeBlob2_err h3) (by simp)
      · exact absurd h3 (by simp)
  · intro h
    have hf : r.frames[i]? = none := List.getElem?_eq_none h
    unfold FrameReader.get_from_compression_type_2
    have h1 : r.get_frame_without_coordinates i = .err .indexOutOfBounds := by
      unfold FrameReader.get_frame_without_coordinates; rw [hf]
    rw [h1, RustResult.err_bind]

/-- C6 witness: on the one-frame demonstration reader, `get(len())` (here
`get 1`) returns `IndexOutOfBounds`. -/
theorem claim_C6_witness :
    (mkDemoReader [1, 3, 7]).get 1 = .err .indexOutOfBounds :=
  (claim_C6_index_out_of_bounds_iff (mkDemoReader [1, 3, 7]) 1 rfl rfl).mpr
    (by decide)

/-- C7: the global acquisition type computed at construction is DDA-PASEF iff
some row has `MsMsType = 8`; DIA-PASEF iff some row has `MsMsType = 9` and no
row has 8 (DDA wins when both occur); Unknown iff neither occurs.  Every
successfully constructed reader returns it from `get_acquisition` and stamps
it on every frame skeleton. -/
theorem claim_C7_acquisition_detection (sf : List SqlFrame) :
    (computeAcquisition sf = .DDAPASEF ↔ ∃ f ∈ sf, f.msms_type = 8) ∧
    (computeAcquisition sf = .DIAPASEF ↔
      ((∃ f ∈ sf, f.msms_type = 9) ∧ ∀ f ∈ sf, f.msms_type ≠ 8)) ∧
    (computeAcquisition sf = .Unknown ↔
      ((∀ f ∈ sf, f.msms_type ≠ 8) ∧ ∀ f ∈ sf, f.msms_type ≠ 9)) ∧
    ∀ ct mr wr qs bin r, FrameReader.new ct sf mr wr qs bin = .ok r →
      r.get_acquisition = computeAcquisition sf ∧
      ∀ fr ∈ r.frames, fr.acquisition_type = computeAcquisition sf := by
  have hlink : ∀ ct mr wr qs bin r, FrameReader.new ct sf mr wr qs bin = .ok r →
      r.get_acquisition = computeAcquisition sf ∧
      ∀ fr ∈ r.frames, fr.acquisition_type = computeAcquisition sf := by
    intro ct mr wr qs bin r h
    obtain ⟨-, hacq, -, -, -, -, wg, qs', hbuild⟩ := FrameReader.new_ok h
    refine ⟨hacq, ?_⟩
    intro fr hfr
    obtain ⟨-, hmem⟩ := buildFrames_ok hbuild
    obtain ⟨i, -, hok⟩ := hmem fr hfr
    obtain ⟨sqlf, -, hat, -⟩ := get_frame_without_data_ok hok
    exact hat
  have h8 : sf.any (fun x => x.msms_type == 8) = true ↔
      ∃ f ∈ sf, f.msms_type = 8 := by simp [List.any_eq_true]
  have h9 : sf.any (fun x => x.msms_type == 9) = true ↔
      ∃ f ∈ sf, f.msms_type = 9 := by simp [List.any_eq_true]
  have hchar : (computeAcquisition sf = .DDAPASEF ↔ ∃ f ∈ sf, f.msms_type = 8) ∧
      (computeAcquisition sf = .DIAPASEF ↔
        ((∃ f ∈ sf, f.msms_type = 9) ∧ ∀ f ∈ sf, f.msms_type ≠ 8)) ∧
      (computeAcquisition sf = .Unknown ↔
        ((∀ f ∈ sf, f.msms_type ≠ 8) ∧ ∀ f ∈ sf, f.msms_type ≠ 9)) := by
    by_cases c8 : sf.any (fun x => x.msms_type == 8) = true
    · have hA8 := h8.mp c8
      rw [computeAcquisition, if_pos c8]
      refine ⟨⟨fun _ => hA8, fun _ => rfl⟩, ?_, ?_⟩
      · constructor
        · intro hcontr; exact absurd hcontr (by simp)
        · rintro ⟨-, hne⟩
          obtain ⟨f, hf, hf8⟩ := hA8
          exact absurd hf8 (hne f hf)
      · constructor
        · intro hcontr; exact absurd hcontr (by simp)
        · rintro ⟨hne, -⟩
          obtain ⟨f, hf, hf8⟩ := hA8
          exact absurd hf8 (hne f hf)
    · have hN8 : ∀ f ∈ sf, f.msms_type ≠ 8 := by
        intro f hf hcontr
        exact c8 (h8.mpr ⟨f, hf, hcontr⟩)
      rw [computeAcquisition, if_neg c8]
      by_cases c9 : sf.any (fun x => x.msms_type == 9) = true
      · have hA9 := h9.mp c9
        rw [if_pos c9]
        refine ⟨?_, ⟨fun _ => ⟨hA9, hN8⟩, fun _ => rfl⟩, ?_⟩
        · constructor
          · intro hcontr; exact absurd hcontr (by simp)
          · rintro ⟨f, hf, hf8⟩
            exact absurd hf8 (hN8 f hf)
        · constructor
          · intro hcontr; exact absurd hcontr (by simp)
          · rintro ⟨-, hne⟩
            obtain ⟨f, hf, hf9⟩ := hA9
            exact absurd hf9 (hne f hf)
      · have hN9 : ∀ f ∈ sf, f.msms_type ≠ 9 := by
          intro f hf hcontr
          exact c9 (h9.mpr ⟨f, hf, hcontr⟩)
        rw [if_neg c9]
        refine ⟨?_, ?_, ⟨fun _ => ⟨hN8, hN9⟩, fun _ => rfl⟩⟩
        · constructor
          · intro hcontr; exact absurd hcontr (by simp)
          · rintro ⟨f, hf, hf8⟩
            exact absurd hf8 (hN8 f hf)
        · constructor
          · intro hcontr; exact absurd hcontr (by simp)
          · rintro ⟨⟨f, hf, hf9⟩, -⟩
            exact absurd hf9 (hN9 f hf)
  exact ⟨hchar.1, hchar.2.1, hchar.2.2, hlink⟩

/-- C7 witness: the mixed table with `MsMsType` values 0, 8, 9 instantiates
the characterization (DDA wins) and the construction link. -/
theorem claim_C7_witness :
    (computeAcquisition [{ msms_type := 0 }, { msms_type := 8 },
        { msms_type := 9 }] = .DDAPASEF ↔
      ∃ f ∈ [{ msms_type := 0 }, { msms_type := 8 },
        ({ msms_type := 9 } : SqlFrame)], f.msms_type = 8) ∧
    (computeAcquisition [{ msms_type := 0 }, { msms_type := 8 },
        { msms_type := 9 }] = .DIAPASEF ↔
      ((∃ f ∈ [{ msms_type := 0 }, { msms_type := 8 },
          ({ msms_type := 9 } : SqlFrame)], f.msms_type = 9) ∧
        ∀ f ∈ [{ msms_type := 0 }, { msms_type := 8 },
          ({ msms_type := 9 } : SqlFrame)], f.msms_type ≠ 8)) ∧
    (computeAcquisition [{ msms_type := 0 }, { msms_type := 8 },
        { msms_type := 9 }] = .Unknown ↔
      ((∀ f ∈ [{ msms_type := 0 }, { msms_type := 8 },
          ({ msms_type := 9 } : SqlFrame)], f.msms_type ≠ 8) ∧
        ∀ f ∈ [{ msms_type := 0 }, { msms_type := 8 },
          ({ msms_type := 9 } : SqlFrame)], f.msms_type ≠ 9)) ∧
    ∀ ct mr wr qs bin r,
      FrameReader.new ct [{ msms_type := 0 }, { msms_type := 8 },
        { msms_type := 9 }] mr wr qs bin = .ok r →
      r.get_acquisition = computeAcquisition [{ msms_type := 0 },
        { msms_type := 8 }, { msms_type := 9 }] ∧
      ∀ fr ∈ r.frames, fr.acquisition_type =
        computeAcquisition [{ msms_type := 0 }, { msms_type := 8 },
          { msms_type := 9 }] :=
  claim_C7_acquisition_detection
    [{ msms_type := 0 }, { msms_type := 8 }, { msms_type := 9 }]

/-- C8 counterexample: `is_maldi` does not imply that some skeleton carries
MALDI info.  A MALDI table with one row for frame id 2 over a Frames table
whose only frame has id 1 constructs successfully with `is_maldi = true`
while every skeleton has `maldi_info = none`. -/
theorem claim_C8_counterexample :
    (FrameReader.new 2 [{ id := 1 }] [{ frame := 2 }] [] []
        (fun _ => some [1, 3, 7])).bind
      (fun r => .ok (r.is_maldi, r.frames.map fun fr => fr.maldi_info)) =
    .ok (true, [none]) := by decide

/-- C8 amended: after construction, `is_maldi()` is true iff the MALDI table
rows loaded at construction are nonempty; a skeleton with `maldi_info` set
implies `is_maldi`, but not conversely (a row may reference an absent frame
id). -/
theorem claim_C8_is_maldi_iff_rows (ct : Nat) (sf : List SqlFrame)
    (mr : List SqlMaldiFrameInfo) (wr : List SqlWindowGroup)
    (qs : List QuadrupoleSettings) (bin : Nat → Option (List Nat))
    (r : FrameReader) (h : FrameReader.new ct sf mr wr qs bin = .ok r) :
    (r.is_maldi = true ↔ mr ≠ []) ∧
    ((∃ fr ∈ r.frames, fr.maldi_info.isSome) → r.is_maldi = true) := by
  obtain ⟨-, -, hmal, -, -, -, wg, qs', hbuild⟩ := FrameReader.new_ok h
  constructor
  · rw [hmal]
    cases mr with
    | nil => simp
    | cons a as => simp
  · rintro ⟨fr, hfr, hsome⟩
    obtain ⟨-, hmem⟩ := buildFrames_ok hbuild
    obtain ⟨i, -, hok⟩ := hmem fr hfr
    obtain ⟨sqlf, -, -, hiff⟩ := get_frame_without_data_ok hok
    have hlook : (maldiLookup mr sqlf.id).isSome := hiff.mp hsome
    rw [hmal]
    cases mr with
    | nil => simp [maldiLookup] at hlook
    | cons a as => simp

/-- C8 witness for the amended statement, at the construction with one Frames
row (id 1) and one MALDI row referencing the absent frame id 2. -/
theorem claim_C8_witness :
    (c8Reader.is_maldi = true ↔
      ([{ frame := 2 }] : List SqlMaldiFrameInfo) ≠ []) ∧
    ((∃ fr ∈ c8Reader.frames, fr.maldi_info.isSome) →
      c8Reader.is_maldi = true) :=
  claim_C8_is_maldi_iff_rows 2
    [{ id := 1, accumulation_time := { num := 1 } }] [{ frame := 2 }] [] []
    c8Bin c8Reader (by rfl)

/-- C9: `get` is a pure function of the reader and index, so repeated calls
return structurally equal frames; `get_all()` has length `len()` and its
element at position `i` is exactly the result of `get(i)`. -/
theorem claim_C9_get_all_agrees (r : FrameReader) (i : Nat) (h : i < r.len) :
    (∀ f g, r.get i = .ok f → r.get i = .ok g → f = g) ∧
    r.get_all.length = r.len ∧
    r.get_all[i]? = some (r.get i) := by
  refine ⟨?_, ?_, ?_⟩
  · intro f g hf hg
    rw [hf] at hg
    cases hg
    rfl
  · simp [FrameReader.get_all, FrameReader.parallel_filter]
  · simp [FrameReader.get_all, FrameReader.parallel_filter,
      List.getElem?_range h]

/-- C9 witness: on the one-frame demonstration reader, the bulk accessor has
length 1 and position 0 agrees with `get 0`. -/
theorem claim_C9_witness :
    (∀ f g, (mkDemoReader [1, 3, 7]).get 0 = .ok f →
      (mkDemoReader [1, 3, 7]).get 0 = .ok g → f = g) ∧
    (mkDemoReader [1, 3, 7]).get_all.length = (mkDemoReader [1, 3, 7]).len ∧
    (mkDemoReader [1, 3, 7]).get_all[0]? = some ((mkDemoReader [1, 3, 7]).get 0) :=
  claim_C9_get_all_agrees (mkDemoReader [1, 3, 7]) 0 (by decide)
